import Mathlib

/-!
Verification of the SM-2 Mnemosyne scheduler core
(`src/mnemosyne/libmnemosyne/schedulers/SM2_mnemosyne.py`).

The scheduler is embedded shallowly:

* POSIX timestamps and intervals are `Int` (the source stores integer
  seconds; Python 2 integer `/` is floor division, embedded as `Int.fdiv`,
  and `int(float(a)/float(b))` truncates toward zero, embedded as
  `Int.div`; both are exact for the magnitudes the scheduler handles).
* The process-wide clock, the `day_starts_at` configuration value and the
  local UTC offset (`time.altzone` / `time.timezone`, whichever the DST
  branch of the source selects) are explicit parameters.
* The card store (`self.database()`) is external to the scheduler sources;
  its queries are modelled from the spec as functions over response rows
  held in a `Db` structure.
* UI side effects (`show_error`, `show_information`) are recorded as
  boolean observables in the function results; `random.choice` for the
  scheduling noise is an explicit `noise_choice` parameter.
-/

namespace SM2

/-- Seconds in an hour (`HOUR = 60 * 60`). -/
def HOUR : Int := 60 * 60

/-- Seconds in a day (`DAY = 24 * HOUR`). -/
def DAY : Int := 24 * HOUR

/-- At most increase an interval by 30 days (`MAX_INCREASE`). -/
def MAX_INCREASE : Int := 30 * DAY

/-- Cap the total interval at 360 days (`MAX_TOTAL`). -/
def MAX_TOTAL : Int := 360 * DAY

/-- Grade constant `GRADE_FORGOT = 0`. -/
def GRADE_FORGOT : Int := 0

/-- Grade constant `GRADE_LESS_BIG = 1`. -/
def GRADE_LESS_BIG : Int := 1

/-- Grade constant `GRADE_LESS_SMALL = 2`. -/
def GRADE_LESS_SMALL : Int := 2

/-- Grade constant `GRADE_SAME = 3`. -/
def GRADE_SAME : Int := 3

/-- Grade constant `GRADE_MORE_SMALL = 4`. -/
def GRADE_MORE_SMALL : Int := 4

/-- Grade constant `GRADE_MORE_BIG = 5`. -/
def GRADE_MORE_BIG : Int := 5

/-- The reminder tag prefix `REMINDER_TAG_STUB = "Reminder::Reminder"`. -/
def REMINDER_TAG_STUB : String := "Reminder::Reminder"

/-- Scheduler configuration: `day_starts_at` is the configuration key the
scheduler reads; `utc_offset` is the local offset in seconds west of UTC
(the source uses `time.altzone` when DST is active and `time.timezone`
otherwise; the selection is abstracted into this single ambient value). -/
structure Cfg where
  day_starts_at : Int
  utc_offset : Int
deriving DecidableEq

/-- A card, as read and mutated by the scheduler.  `id` is the internal
`card._id`, `fact` is `card.fact._id`.  `tags` is the list of tag strings,
i.e. `card.tag_string().split(", ")` (the card class itself lives outside
the scheduler sources).  `easiness` is a real in the source, only ever
written with the constant 2.0; it is embedded as a rational. -/
structure Card where
  id : Nat
  fact : Nat
  tags : List String
  grade : Int
  easiness : Rat
  acq_reps : Int
  acq_reps_since_lapse : Int
  ret_reps : Int
  ret_reps_since_lapse : Int
  lapses : Int
  last_rep : Int
  next_rep : Int
deriving DecidableEq

/-- The queue state of the scheduler instance (§ `reset` of the source):
the field names follow the source attributes `_card_ids_in_queue`,
`_fact_ids_in_queue`, `_fact_ids_memorised`, `_card_id_last`, `new_only`,
`stage`, `warned_about_too_many_cards` and `_in_learn_ahead`. -/
structure SchedState where
  card_ids_in_queue : List Nat
  fact_ids_in_queue : List Nat
  fact_ids_memorised : List Nat
  card_id_last : Option Nat
  new_only : Bool
  stage : Nat
  warned_about_too_many_cards : Bool
  in_learn_ahead : Bool
deriving DecidableEq

/-- The local calendar date (in days since the epoch) of a POSIX timestamp,
for a zone `tz` seconds west of UTC.  This embeds
`datetime.date.fromtimestamp(timestamp)` for a fixed-offset zone (the
DST-transition corner and the 32-bit 2038 `OverflowError` fallback of the
source are platform conditions outside the embedding; timestamps are
unbounded integers here, per the spec's 64-bit design note). -/
def local_date (tz t : Int) : Int := (t - tz).fdiv DAY

/-- `midnight_UTC`: round a timestamp, interpreted as local time, to the
POSIX timestamp of 00:00 UTC of its local calendar date.  The source forms
the local date tuple and re-reads it with `calendar.timegm`; for the date
`d` (days since the epoch) that timegm value is `d * DAY`. -/
def midnight_UTC (tz t : Int) : Int := local_date tz t * DAY

/-- `adjusted_now`: shift the clock by `day_starts_at` hours and by the
local UTC offset, so that cards stored as midnight UTC become due at the
configured local hour. -/
def adjusted_now (cfg : Cfg) (now : Int) : Int :=
  now - cfg.day_starts_at * HOUR - cfg.utc_offset

/-- `true_scheduled_interval`: undo the `adjusted_now` corrections on
`next_rep - last_rep`.  For a `GRADE_FORGOT` card the uncorrected interval
is returned, and the second component records whether the source shows the
"Internal error: interval not zero." message. -/
def true_scheduled_interval (cfg : Cfg) (card : Card) : Int × Bool :=
  let interval := card.next_rep - card.last_rep
  if card.grade = GRADE_FORGOT then
    (interval, interval ≠ 0)
  else
    (interval + cfg.day_starts_at * HOUR + cfg.utc_offset, false)

/-- `reset`: clear the queue state; start at stage 3 when `new_only`,
else at stage 1; clear the too-many-cards warning flag.
(`_in_learn_ahead` is not touched by the source's `reset`.) -/
def reset (st : SchedState) (new_only : Bool) : SchedState :=
  { st with
    card_ids_in_queue := []
    fact_ids_in_queue := []
    fact_ids_memorised := []
    card_id_last := none
    new_only := new_only
    stage := if new_only = false then 1 else 3
    warned_about_too_many_cards := false }

/-- `calculate_initial_interval`: the tuple
`(0, 1*DAY, 1*DAY, 1*DAY, 2*DAY, 4*DAY)[grade]` with Python indexing
semantics (negative indices count from the end; an index out of range
raises, embedded as `none`). -/
def calculate_initial_interval (grade : Int) : Option Int :=
  let i := if grade < 0 then grade + 6 else grade
  if 0 ≤ i then [0, DAY, DAY, DAY, 2 * DAY, 4 * DAY].get? i.toNat else none

/-- The store query `sister_card_count_scheduled_between(card, a, b)`,
modelled as the number of sister next-repetition timestamps in `[a, b)`;
`sisters` is the list of `next_rep` values of the card's sister cards. -/
def sister_count_between (sisters : List Int) (a b : Int) : Nat :=
  (sisters.filter (fun s => decide (a ≤ s ∧ s < b))).length

/-- `avoid_sister_cards`: increment `next_rep` by a day while the store
reports a sister card scheduled within `[next_rep, next_rep + DAY)`.
Terminates because each step moves the window past at least one sister. -/
def avoid_sister_cards (sisters : List Int) (next_rep : Int) : Int :=
  if h : sister_count_between sisters next_rep (next_rep + DAY) ≠ 0 then
    avoid_sister_cards sisters (next_rep + DAY)
  else
    next_rep
termination_by (sisters.filter (fun s => decide (next_rep ≤ s))).length
decreasing_by
  have hday : (0:Int) < DAY := by decide
  have hmono : ∀ u : List Int,
      (u.filter (fun s => decide (next_rep + DAY ≤ s))).length ≤
      (u.filter (fun s => decide (next_rep ≤ s))).length := by
    intro u
    induction u with
    | nil => simp
    | cons a t ih =>
      by_cases hp : next_rep + DAY ≤ a
      · have hq : next_rep ≤ a := by omega
        simp [List.filter_cons, hp, hq]
        omega
      · by_cases hq : next_rep ≤ a
        · simp [List.filter_cons, hp, hq]
          omega
        · simp [List.filter_cons, hp, hq]
          exact ih
  have hx : ∃ s, s ∈ sisters ∧ next_rep ≤ s ∧ s < next_rep + DAY := by
    have hpos : 0 < (sisters.filter
        (fun s => decide (next_rep ≤ s ∧ s < next_rep + DAY))).length := by
      unfold sister_count_between at h
      omega
    obtain ⟨s, hs⟩ := List.exists_mem_of_length_pos hpos
    have := List.mem_filter.mp hs
    exact ⟨s, this.1, by simpa using this.2⟩
  obtain ⟨s, hmem, hs1, hs2⟩ := hx
  -- strictness: s is counted by the old window predicate but not the new one
  have hperm : sisters.Perm (s :: sisters.erase s) := List.perm_cons_erase hmem
  have hold : (sisters.filter (fun x => decide (next_rep ≤ x))).length =
      ((s :: sisters.erase s).filter (fun x => decide (next_rep ≤ x))).length :=
    (hperm.filter _).length_eq
  have hnew : (sisters.filter (fun x => decide (next_rep + DAY ≤ x))).length =
      ((s :: sisters.erase s).filter (fun x => decide (next_rep + DAY ≤ x))).length :=
    (hperm.filter _).length_eq
  have h1 : ((s :: sisters.erase s).filter (fun x => decide (next_rep ≤ x))).length =
      ((sisters.erase s).filter (fun x => decide (next_rep ≤ x))).length + 1 := by
    simp [List.filter_cons, hs1]
  have h2 : ((s :: sisters.erase s).filter (fun x => decide (next_rep + DAY ≤ x))).length =
      ((sisters.erase s).filter (fun x => decide (next_rep + DAY ≤ x))).length := by
    have : ¬ (next_rep + DAY ≤ s) := by omega
    simp [List.filter_cons, this]
  have h3 := hmono (sisters.erase s)
  omega

/-- A response row of the card store.  `cid` and `fid` are the internal
card and fact identifiers returned by the queries; `interval` is the
stored scheduled-interval column used by the `"-interval"` sort key;
`next_rep`, `last_rep` and `grade` are the card columns the queries
filter and sort on. -/
structure Row where
  cid : Nat
  fid : Nat
  interval : Int
  next_rep : Int
  last_rep : Int
  grade : Int
deriving DecidableEq

/-- Modelled from the spec: the card store consumed by the scheduler
(§6.1 of the spec; the store implementation is not among the scheduler
sources).  Each list holds the backing rows of one query family;
`cardNext` and `cardLast` give the `next_rep` and `last_rep` fields of
`db.card(_card_id, is_id_internal=True)`. -/
structure Db where
  loaded : Bool
  activeCount : Nat
  dueRows : List Row
  relearnRows : List Row
  newMemorisingRows : List Row
  unseenRows : List Row
  learnAheadRows : List Row
  cardNext : Nat → Int
  cardLast : Nat → Int

/-- Insert a row into a list that is sorted by descending `interval`. -/
def insertDescInterval (x : Row) : List Row → List Row
  | [] => [x]
  | y :: ys =>
    if x.interval ≥ y.interval then x :: y :: ys else y :: insertDescInterval x ys

/-- Sort rows by descending `interval` (insertion sort). -/
def sortDescInterval : List Row → List Row
  | [] => []
  | x :: xs => insertDescInterval x (sortDescInterval xs)

/-- Insert a row into a list that is sorted by ascending `last_rep`. -/
def insertAscLastRep (x : Row) : List Row → List Row
  | [] => [x]
  | y :: ys =>
    if x.last_rep ≤ y.last_rep then x :: y :: ys else y :: insertAscLastRep x ys

/-- Sort rows by ascending `last_rep` (insertion sort). -/
def sortAscLastRep : List Row → List Row
  | [] => []
  | x :: xs => insertAscLastRep x (sortAscLastRep xs)

/-- Modelled from the spec: the store's interpretation of the sort keys
(§6.1): `"-interval"` sorts by descending scheduled interval, `"last_rep"`
by ascending `last_rep`.  Any other key is returned unsorted (the
scheduler only ever passes these two). -/
def storeSort (sort_key : String) (rows : List Row) : List Row :=
  if sort_key = "-interval" then sortDescInterval rows
  else if sort_key = "last_rep" then sortAscLastRep rows
  else rows

/-- Modelled from the spec: `cards_due_for_ret_rep(adjusted_now, sort_key,
limit)` returns up to `limit` `(card_id, fact_id)` pairs of cards with
`next_rep ≤ adjusted_now`, ordered by the sort key. -/
def cards_due_for_ret_rep (db : Db) (now : Int) (sort_key : String)
    (limit : Nat) : List (Nat × Nat) :=
  ((storeSort sort_key (db.dueRows.filter (fun r => decide (r.next_rep ≤ now)))).take
    limit).map (fun r => (r.cid, r.fid))

/-- Modelled from the spec: `cards_to_relearn(grade, sort_key)` returns the
`(card_id, fact_id)` pairs of the cards to relearn with the given grade,
ordered by the sort key. -/
def cards_to_relearn (db : Db) (grade : Int) (sort_key : String) :
    List (Nat × Nat) :=
  (storeSort sort_key (db.relearnRows.filter (fun r => decide (r.grade = grade)))).map
    (fun r => (r.cid, r.fid))

/-- Modelled from the spec: `cards_new_memorising(grade)` returns the
`(card_id, fact_id)` pairs of seen-but-not-memorised cards with the given
grade, in store order. -/
def cards_new_memorising (db : Db) (grade : Int) : List (Nat × Nat) :=
  (db.newMemorisingRows.filter (fun r => decide (r.grade = grade))).map
    (fun r => (r.cid, r.fid))

/-- Modelled from the spec: `cards_unseen(limit)` returns up to `limit`
`(card_id, fact_id)` pairs of unseen cards, in store order. -/
def cards_unseen (db : Db) (limit : Nat) : List (Nat × Nat) :=
  (db.unseenRows.take limit).map (fun r => (r.cid, r.fid))

/-- Modelled from the spec: `cards_learn_ahead(max_next_rep, sort_key)`
returns the `(card_id, fact_id)` pairs of cards with
`next_rep ≤ max_next_rep`, ordered by the sort key. -/
def cards_learn_ahead (db : Db) (max_next_rep : Int) (sort_key : String) :
    List (Nat × Nat) :=
  (storeSort sort_key (db.learnAheadRows.filter
    (fun r => decide (r.next_rep ≤ max_next_rep)))).map (fun r => (r.cid, r.fid))

/-- The stage 2 / stage 3 loop body of `rebuild_queue`: walk the rows; for
each whose fact is not yet in the queue, if the non-memorised count is
below the limit append the card identifier twice and the fact once and
bump the count, and break once the count reaches the limit.  Returns the
new queue, fact list and count. -/
def relearnLoop : List (Nat × Nat) → List Nat → List Nat → Nat → Nat →
    List Nat × List Nat × Nat
  | [], q, fs, cnt, _ => (q, fs, cnt)
  | (c, f) :: rest, q, fs, cnt, lim =>
    if f ∈ fs then relearnLoop rest q fs cnt lim
    else if cnt < lim then
      let q := q ++ [c, c]
      let fs := fs ++ [f]
      let cnt := cnt + 1
      if cnt = lim then (q, fs, cnt) else relearnLoop rest q fs cnt lim
    else if cnt = lim then (q, fs, cnt)
    else relearnLoop rest q fs cnt lim

/-- The stage 4 loop body of `rebuild_queue`: walk the unseen rows,
skipping facts already in the queue and (when `checkMem` — the first pass)
facts memorised this session; append each taken card once, and early-exit
the whole rebuild when the count reaches the limit (final `Bool`). -/
def unseenLoop (checkMem : Bool) (mem : List Nat) :
    List (Nat × Nat) → List Nat → List Nat → Nat → Nat →
    List Nat × List Nat × Nat × Bool
  | [], q, fs, cnt, _ => (q, fs, cnt, false)
  | (c, f) :: rest, q, fs, cnt, lim =>
    if f ∈ fs then unseenLoop checkMem mem rest q fs cnt lim
    else if checkMem ∧ f ∈ mem then unseenLoop checkMem mem rest q fs cnt lim
    else
      let q := q ++ [c]
      let fs := fs ++ [f]
      let cnt := cnt + 1
      if cnt = lim then (q, fs, cnt, true)
      else unseenLoop checkMem mem rest q fs cnt lim

/-- The stage 5 loop body of `rebuild_queue`: walk the learn-ahead rows,
skip cards whose scheduled interval is below 34 days (Python 2 floor
division by `DAY`), append the rest and flag `_in_learn_ahead`. -/
def learnAheadLoop (db : Db) : List (Nat × Nat) → List Nat → Bool →
    List Nat × Bool
  | [], q, fl => (q, fl)
  | (c, _) :: rest, q, fl =>
    if (db.cardNext c - db.cardLast c).fdiv DAY < 34 then
      learnAheadLoop db rest q fl
    else learnAheadLoop db rest (q ++ [c]) true

/-- Stage 1 of `rebuild_queue`: when `stage == 1`, fetch up to 50 due
cards with sort key `"-interval"`, append every returned pair, and
early-return (`Sum.inl`) when anything was added; otherwise advance to
stage 2.  No fact check is performed on these appends. -/
def stage1 (cfg : Cfg) (db : Db) (now : Int) (st : SchedState) :
    SchedState ⊕ SchedState :=
  if st.stage = 1 then
    let pairs := cards_due_for_ret_rep db (adjusted_now cfg now) "-interval" 50
    let st := { st with
      card_ids_in_queue := st.card_ids_in_queue ++ pairs.map Prod.fst
      fact_ids_in_queue := st.fact_ids_in_queue ++ pairs.map Prod.snd }
    if st.card_ids_in_queue.length ≠ 0 then Sum.inl st
    else Sum.inr { st with stage := 2 }
  else Sum.inr st

/-- Stage 2 of `rebuild_queue`: when `stage == 2`, run `relearnLoop` over
`cards_to_relearn(GRADE_FORGOT, "last_rep")`; early-return when the
non-memorised limit of 50 was reached; mark stage 3 skippable when the
queue stayed empty.  On the continue path the running count is passed on. -/
def stage2 (db : Db) (st : SchedState) : SchedState ⊕ (SchedState × Nat) :=
  if st.stage = 2 then
    let rows := cards_to_relearn db GRADE_FORGOT "last_rep"
    let r := relearnLoop rows st.card_ids_in_queue st.fact_ids_in_queue 0 50
    let st := { st with card_ids_in_queue := r.1, fact_ids_in_queue := r.2.1 }
    if r.2.2 = 50 then Sum.inl st
    else if st.card_ids_in_queue.length = 0 then
      Sum.inr ({ st with stage := 3 }, r.2.2)
    else Sum.inr (st, r.2.2)
  else Sum.inr (st, 0)

/-- Stage 3 of `rebuild_queue`: when `stage ≤ 3`, run `relearnLoop` over
`cards_new_memorising(GRADE_FORGOT)` with the carried count; early-return
at the limit; mark stage 4 skippable when the queue is still empty. -/
def stage3 (db : Db) (st : SchedState) (cnt : Nat) :
    SchedState ⊕ (SchedState × Nat) :=
  if st.stage ≤ 3 then
    let rows := cards_new_memorising db GRADE_FORGOT
    let r := relearnLoop rows st.card_ids_in_queue st.fact_ids_in_queue cnt 50
    let st := { st with card_ids_in_queue := r.1, fact_ids_in_queue := r.2.1 }
    if r.2.2 = 50 then Sum.inl st
    else if st.card_ids_in_queue.length = 0 then
      Sum.inr ({ st with stage := 4 }, r.2.2)
    else Sum.inr (st, r.2.2)
  else Sum.inr (st, cnt)

/-- Stage 4 of `rebuild_queue`: when `stage ≤ 4`, take unseen cards whose
facts are neither queued nor memorised this session; on reaching the limit
set the resume stage (2, or 3 under `new_only`) and early-return.  When at
most two facts are queued, run a second pass that ignores the memorised
set.  Mark stage 5 reachable when the queue is still empty. -/
def stage4 (db : Db) (st : SchedState) (cnt : Nat) : SchedState ⊕ SchedState :=
  if st.stage ≤ 4 then
    let rows := cards_unseen db 50
    let r1 := unseenLoop true st.fact_ids_memorised rows
      st.card_ids_in_queue st.fact_ids_in_queue cnt 50
    let st1 := { st with card_ids_in_queue := r1.1, fact_ids_in_queue := r1.2.1 }
    if r1.2.2.2 = true then
      Sum.inl { st1 with stage := if st1.new_only = false then 2 else 3 }
    else if st1.fact_ids_in_queue.length ≤ 2 then
      let r2 := unseenLoop false st1.fact_ids_memorised rows
        st1.card_ids_in_queue st1.fact_ids_in_queue r1.2.2.1 50
      let st2 := { st1 with card_ids_in_queue := r2.1, fact_ids_in_queue := r2.2.1 }
      if r2.2.2.2 = true then
        Sum.inl { st2 with stage := if st2.new_only = false then 2 else 3 }
      else if st2.card_ids_in_queue.length = 0 then
        Sum.inr { st2 with stage := 5 }
      else Sum.inr st2
    else if st1.card_ids_in_queue.length = 0 then
      Sum.inr { st1 with stage := 5 }
    else Sum.inr st1
  else Sum.inr st

/-- The tail of `rebuild_queue` (the stage 5 block, which is not guarded
by a stage test): without `learn_ahead`, restore the resume stage and
return; with it, append the eligible learn-ahead cards and resume at
stage 2. -/
def stage5 (cfg : Cfg) (db : Db) (now : Int) (learn_ahead : Bool)
    (st : SchedState) : SchedState :=
  if learn_ahead = false then
    { st with stage := if st.new_only = false then 2 else 3 }
  else
    let max_next_rep := adjusted_now cfg now + DAY * 7
    let rows := cards_learn_ahead db max_next_rep "-interval"
    let r := learnAheadLoop db rows st.card_ids_in_queue st.in_learn_ahead
    { st with card_ids_in_queue := r.1, in_learn_ahead := r.2, stage := 2 }

/-- `rebuild_queue(learn_ahead)`: no-op unless the store is loaded with a
nonzero active count; reset the queue and fact lists and the learn-ahead
flag, then walk the stages, early-returning where the source returns. -/
def rebuild_queue (cfg : Cfg) (db : Db) (now : Int) (learn_ahead : Bool)
    (st : SchedState) : SchedState :=
  if db.loaded = false ∨ db.activeCount = 0 then st
  else
    let st := { st with
      card_ids_in_queue := []
      fact_ids_in_queue := []
      in_learn_ahead := false }
    match stage1 cfg db now st with
    | Sum.inl stF => stF
    | Sum.inr st =>
      match stage2 db st with
      | Sum.inl stF => stF
      | Sum.inr (st, cnt) =>
        match stage3 db st cnt with
        | Sum.inl stF => stF
        | Sum.inr (st, cnt) =>
          match stage4 db st cnt with
          | Sum.inl stF => stF
          | Sum.inr st => stage5 cfg db now learn_ahead st

/-- The pop loop of `next_card`: pop entries equal to the last-shown
identifier `l` off the front of the queue until a distinct one appears;
`none` when the queue is exhausted first. -/
def popNonLast (l : Nat) : List Nat → Option (Nat × List Nat)
  | [] => none
  | x :: xs => if x = l then popNonLast l xs else some (x, xs)

/-- `next_card(learn_ahead)`: rebuild when the queue is empty; pop the
front; unless `self._card_id_last` is falsy (Python truthiness: `None` or
the identifier `0`), keep popping while the popped identifier equals the
last one, rebuilding if the queue empties mid-loop and returning the
identifier anyway in the hopeless case where the rebuilt queue holds only
that identifier.  Returns the identifier handed to `db.card`, a flag
recording whether the hopeless-case return was taken, and the new state. -/
def next_card (cfg : Cfg) (db : Db) (now : Int) (learn_ahead : Bool)
    (st : SchedState) : Option Nat × Bool × SchedState :=
  let st := if st.card_ids_in_queue.length = 0 then
    rebuild_queue cfg db now learn_ahead st else st
  match st.card_ids_in_queue with
  | [] => (none, false, st)
  | c :: rest =>
    let st := { st with card_ids_in_queue := rest }
    match st.card_id_last with
    | none => (some c, false, { st with card_id_last := some c })
    | some l =>
      if l = 0 then (some c, false, { st with card_id_last := some c })
      else if c ≠ l then (some c, false, { st with card_id_last := some c })
      else
        match popNonLast l st.card_ids_in_queue with
        | some (c2, rest2) =>
          (some c2, false, { st with card_ids_in_queue := rest2, card_id_last := some c2 })
        | none =>
          let st := rebuild_queue cfg db now learn_ahead
            { st with card_ids_in_queue := [] }
          if st.card_ids_in_queue.length = 0 then (none, false, st)
          else if st.card_ids_in_queue.all (fun x => x = l) then
            -- set(queue) == set([l]): the hopeless case, return l without popping
            (some l, true, st)
          else
            match popNonLast l st.card_ids_in_queue with
            | some (c2, rest2) =>
              (some c2, false,
               { st with card_ids_in_queue := rest2, card_id_last := some c2 })
            | none =>
              -- unreachable: the queue is nonempty and holds an entry ≠ l
              (none, false, st)

/-- Digit-string parsing: the digit run of Python's `int`, over the
character list of the string; `none` when empty or a non-digit occurs. -/
def digitsToNat : List Char → Option Nat → Option Nat
  | [], acc => acc
  | c :: rest, acc =>
    if c.isDigit then
      digitsToNat rest (some ((acc.getD 0) * 10 + (c.toNat - 48)))
    else none

/-- Python's `int(s)` on the remainder of a reminder tag: an optional sign
followed by a nonempty digit run; anything else raises (`none`).
(Surrounding whitespace, accepted by Python's `int`, is not modelled.) -/
def parsePyInt (cs : List Char) : Option Int :=
  match cs with
  | '-' :: rest => (digitsToNat rest none).map (fun n => -(n : Int))
  | '+' :: rest => (digitsToNat rest none).map (fun n => (n : Int))
  | _ => (digitsToNat cs none).map (fun n => (n : Int))

/-- The reminder-tag loop of `grade_answer` (operating on the character
lists of the tag strings): for each tag starting with
`REMINDER_TAG_STUB`, parse the remainder as an integer `numdays`, cap the
interval at `numdays * DAY`, and set `add_noise` when the capped interval
is at least `(numdays - 1) * DAY`.  A tag whose remainder fails to parse
raises in the source (`none`). -/
def applyReminderCaps : List String → Int → Bool → Option (Int × Bool)
  | [], ni, noise => some (ni, noise)
  | tag :: rest, ni, noise =>
    if List.isPrefixOf REMINDER_TAG_STUB.data tag.data then
      match parsePyInt (tag.data.drop REMINDER_TAG_STUB.data.length) with
      | none => none
      | some numdays =>
        let intmax := numdays * DAY
        let ni := min ni intmax
        let noise := if intmax - DAY ≤ ni then true else noise
        applyReminderCaps rest ni noise
    else applyReminderCaps rest ni noise

/-- The interval clamping of `grade_answer` (source lines
`new_interval = min(MAX_TOTAL, new_interval)`,
`diff_interval = min(MAX_INCREASE, new_interval - scheduled_interval)`,
`new_interval = scheduled_interval + diff_interval`). -/
def clampInterval (scheduled_interval ni : Int) : Int :=
  let ni := min MAX_TOTAL ni
  let diff_interval := min MAX_INCREASE (ni - scheduled_interval)
  scheduled_interval + diff_interval

/-- The output of the grading branch of `grade_answer`: the card with its
repetition counters updated, the raw new interval, and the queue after the
possible removal of the second copy of a formerly-forgotten card. -/
structure BranchOut where
  card : Card
  new_interval : Int
  queue : List Nat
deriving DecidableEq

/-- The `(card.grade, new_grade)` branching of `grade_answer` (the five
`if`/`elif` arms).  A `new_grade` outside the range handled by an arm
leaves `new_interval` unbound in the source (a `NameError` / `IndexError`),
embedded as `none`. -/
def gradeBranch (card : Card) (new_grade : Int) (dry_run : Bool)
    (actual_interval scheduled_interval : Int) (queue : List Nat) :
    Option BranchOut :=
  if card.grade = -1 then
    -- the card has not yet been given its initial grade
    match calculate_initial_interval new_grade with
    | none => none
    | some ni =>
      some ⟨{ card with easiness := 2, acq_reps := 1, acq_reps_since_lapse := 1 },
            ni, queue⟩
  else if card.grade = GRADE_FORGOT ∧ new_grade = GRADE_FORGOT then
    -- in the acquisition phase and staying there
    some ⟨{ card with
            acq_reps := card.acq_reps + 1
            acq_reps_since_lapse := card.acq_reps_since_lapse + 1 }, 0, queue⟩
  else if card.grade = GRADE_FORGOT then
    -- in the acquisition phase and moving to the retention phase
    let card := { card with
                  acq_reps := card.acq_reps + 1
                  acq_reps_since_lapse := card.acq_reps_since_lapse + 1 }
    let ni? : Option Int :=
      if new_grade = GRADE_LESS_BIG ∨ new_grade = GRADE_LESS_SMALL ∨
          new_grade = GRADE_SAME then some DAY
      else if new_grade = GRADE_MORE_SMALL then some (2 * DAY)
      else if new_grade = GRADE_MORE_BIG then some (4 * DAY)
      else none
    match ni? with
    | none => none
    | some ni =>
      -- make sure the second copy of a grade 0 card does not show up again
      let queue := if dry_run = false ∧ card.grade = 0 then
          (if card.id ∈ queue then queue.erase card.id else queue)
        else queue
      some ⟨card, ni, queue⟩
  else if new_grade = GRADE_FORGOT then
    -- in the retention phase and dropping back to the acquisition phase
    some ⟨{ card with
            ret_reps := card.ret_reps + 1
            lapses := card.lapses + 1
            acq_reps_since_lapse := 0
            ret_reps_since_lapse := 0 }, 0, queue⟩
  else
    -- in the retention phase and staying there
    let card := { card with
                  ret_reps := card.ret_reps + 1
                  ret_reps_since_lapse := card.ret_reps_since_lapse + 1 }
    let ni? : Option Int :=
      if new_grade = GRADE_LESS_SMALL ∨ new_grade = GRADE_LESS_BIG then
        let factor : Int := if new_grade = GRADE_LESS_BIG then 3 else 2
        -- int(float(actual_interval) / float(factor)): truncation toward zero
        let reduced_interval := Int.tdiv actual_interval factor
        let ni := min scheduled_interval reduced_interval
        -- new_interval < 2.5 * DAY (the float comparison is exact: DAY is even)
        some (if ni * 2 < 5 * DAY then DAY else ni)
      else if new_grade = GRADE_SAME then some actual_interval
      else if new_grade = GRADE_MORE_SMALL ∨ new_grade = GRADE_MORE_BIG then
        let factor : Int := if new_grade = GRADE_MORE_BIG then 3 else 2
        -- never schedule a 5 less than 2 days out
        some (max (actual_interval * factor) (2 * DAY))
      else none
    match ni? with
    | none => none
    | some ni =>
      -- pathological learn-ahead case: floor the result at one day
      some ⟨card, if ni < DAY then DAY else ni, queue⟩

/-- The result of `grade_answer`: the returned interval, the mutated card,
the scheduler state after the queue / memorised-facts / warning-flag
updates, and the recorded observables — `pre_noise_interval` and
`add_noise` expose the interval before the noise step, `warning_shown`
records the 15-cards warning dialog and `error_shown` the internal-error
dialog raised by `true_scheduled_interval`. -/
structure GradeResult where
  new_interval : Int
  pre_noise_interval : Int
  add_noise : Bool
  card : Card
  state : SchedState
  warning_shown : Bool
  error_shown : Bool
deriving DecidableEq

/-- `grade_answer(card, new_grade, dry_run)`.  `now` is the commit clock
`int(time.time())`, `stopwatch_start` the stopwatch start time used for
`actual_interval`, `noise_choice` the value drawn by
`random.choice([-2, -1, 0, 1, 2])`, and `sister_next_reps` the sister
schedule consulted by `avoid_sister_cards`.  Hook dispatch, criterion
application and log emission are external and carry no scheduler state. -/
def grade_answer (cfg : Cfg) (card : Card) (new_grade : Int)
    (dry_run : Bool) (now stopwatch_start : Int) (noise_choice : Int)
    (sister_next_reps : List Int) (st : SchedState) : Option GradeResult :=
  let tsi := true_scheduled_interval cfg card
  let scheduled_interval := tsi.1
  let error_shown := tsi.2
  let actual_interval : Int :=
    if card.grade = -1 then 0 else stopwatch_start - card.last_rep
  -- keep track of freshly memorised facts (not on a dry run)
  let mem :=
    if dry_run = false ∧ card.grade = GRADE_FORGOT ∧ new_grade ≠ GRADE_FORGOT
    then st.fact_ids_memorised ++ [card.fact]
    else st.fact_ids_memorised
  match gradeBranch card new_grade dry_run actual_interval scheduled_interval
      st.card_ids_in_queue with
  | none => none
  | some b =>
    let ni := clampInterval scheduled_interval b.new_interval
    match applyReminderCaps card.tags ni false with
    | none => none
    | some capped =>
      let add_noise : Bool :=
        if 40 ≤ capped.1.fdiv DAY ∧ (new_grade = GRADE_SAME ∨
            new_grade = GRADE_MORE_SMALL ∨ new_grade = GRADE_MORE_BIG)
        then true else capped.2
      let pre_noise := capped.1
      let ni := if add_noise then pre_noise + DAY * noise_choice else pre_noise
      if dry_run then
        some ⟨ni, pre_noise, add_noise, card, st, false, error_shown⟩
      else
        let card1 := { b.card with grade := new_grade, last_rep := now }
        let card2 :=
          if new_grade ≠ GRADE_FORGOT then
            let nr := avoid_sister_cards sister_next_reps
              (midnight_UTC cfg.utc_offset (card1.last_rep + ni))
            { card1 with next_rep := nr }
          else { card1 with next_rep := card1.last_rep }
        let warning_shown : Bool :=
          if mem.length = 15 ∧ st.warned_about_too_many_cards = false
          then true else false
        let st2 := { st with
          card_ids_in_queue := b.queue
          fact_ids_memorised := mem
          warned_about_too_many_cards :=
            st.warned_about_too_many_cards || warning_shown }
        some ⟨ni, pre_noise, add_noise, card2, st2, warning_shown, error_shown⟩

/-! ### Specification predicates -/

/-- Cards in the queue never share a fact: any two queued card identifiers
with equal facts (under the store's card-to-fact map `factOf`) are the
same card. -/
def SisterFree (st : SchedState) (factOf : Nat → Nat) : Prop :=
  ∀ c1 ∈ st.card_ids_in_queue, ∀ c2 ∈ st.card_ids_in_queue,
    factOf c1 = factOf c2 → c1 = c2

/-- The queue/fact-list invariant maintained by the appends of stages 2-4:
every queued card's fact is recorded in the fact list, and queued cards
with equal facts coincide. -/
def QInv (factOf : Nat → Nat) (q fs : List Nat) : Prop :=
  (∀ c ∈ q, factOf c ∈ fs) ∧
  ∀ c1 ∈ q, ∀ c2 ∈ q, factOf c1 = factOf c2 → c1 = c2

/-! ### Concrete fixtures for counterexamples and witnesses -/

/-- A configuration with `day_starts_at = 0` in the UTC zone. -/
def cfg0 : Cfg := ⟨0, 0⟩

/-- An empty scheduler state at stage 1. -/
def stEmpty : SchedState := ⟨[], [], [], none, false, 1, false, false⟩

/-- A store with no rows (used where the store content is irrelevant). -/
def dbEmpty : Db :=
  { loaded := true, activeCount := 1, dueRows := [], relearnRows := [],
    newMemorisingRows := [], unseenRows := [], learnAheadRows := [],
    cardNext := fun _ => 0, cardLast := fun _ => 0 }

/-- A store holding two due sister cards (cards 1 and 2, both of fact 7,
scheduled intervals of 2 and 5 days, due since the epoch). -/
def dbDueSisters : Db :=
  { dbEmpty with
    activeCount := 2
    dueRows := [⟨1, 7, 2 * DAY, 0, 0, 3⟩, ⟨2, 7, 5 * DAY, 0, 0, 3⟩] }

/-- A store holding two due cards of distinct facts with scheduled
intervals of 2 days (card 1) and 50 days (card 2). -/
def dbDueTwo : Db :=
  { dbEmpty with
    activeCount := 2
    dueRows := [⟨1, 11, 2 * DAY, 0, 0, 3⟩, ⟨2, 22, 50 * DAY, 0, 0, 3⟩] }

/-- A retention card graded SAME, 350 scheduled days out, no tags. -/
def cardSame350 : Card := ⟨1, 7, [], 3, 2, 0, 0, 0, 0, 0, 0, 350 * DAY⟩

/-- A retention card graded SAME, 10 scheduled days out, no tags. -/
def cardSame10 : Card := ⟨1, 7, [], 3, 2, 0, 0, 0, 0, 0, 0, 10 * DAY⟩

/-- A retention card graded MORE_BIG, 100 scheduled days out, no tags. -/
def cardBig100 : Card := ⟨1, 7, [], 5, 2, 0, 0, 0, 0, 0, 0, 100 * DAY⟩

/-- A retention card graded MORE_BIG tagged `Reminder::Reminder14`. -/
def cardRem14 : Card :=
  ⟨1, 7, ["Reminder::Reminder14"], 5, 2, 0, 0, 0, 0, 0, 0, 10 * DAY⟩

/-- A forgotten card (grade 0) of fact 7 with `next_rep = last_rep = 0`. -/
def cardForgot : Card := ⟨1, 7, [], 0, 2, 0, 0, 0, 0, 0, 0, 0⟩

/-- A forgotten card whose `next_rep` differs from `last_rep` (the I3
violation detected by `true_scheduled_interval`). -/
def cardForgotBad : Card := ⟨1, 7, [], 0, 2, 0, 0, 0, 0, 0, 0, 5 * DAY⟩

/-- A state that has memorised fact 7 fourteen times this session. -/
def stMem14 : SchedState :=
  ⟨[], [], List.replicate 14 7, none, false, 1, false, false⟩

/-- A state whose queue starts with two copies of the card identifier 0
(which is falsy under Python truthiness) followed by card 1. -/
def stQueue00 : SchedState := ⟨[0, 0, 1], [], [], none, false, 1, false, false⟩

/-- A state with queue `[5, 7]` whose last-shown card is 5. -/
def stQueue57 : SchedState := ⟨[5, 7], [], [], some 5, false, 1, false, false⟩

/-- An empty scheduler state resuming at stage 2. -/
def stStage2 : SchedState := ⟨[], [], [], none, false, 2, false, false⟩

/-- A store whose relearn query returns two forgotten sister cards
(cards 1 and 2, both of fact 7). -/
def dbRelearnSisters : Db :=
  { dbEmpty with
    activeCount := 2
    relearnRows := [⟨1, 7, 0, 0, 0, 0⟩, ⟨2, 7, 0, 0, 5, 0⟩] }

/-! ### Helper lemmas -/

theorem DAY_val : DAY = 86400 := by decide

theorem MAX_TOTAL_val : MAX_TOTAL = 360 * 86400 := by decide

theorem MAX_INCREASE_val : MAX_INCREASE = 30 * 86400 := by decide

theorem fdiv_DAY_eq (a : Int) : a.fdiv DAY = a / DAY :=
  Int.fdiv_eq_ediv a (by decide)

theorem avoid_sister_cards_nil (m : Int) : avoid_sister_cards [] m = m := by
  rw [avoid_sister_cards]
  simp [sister_count_between]

theorem popNonLast_ne_last (l : Nat) :
    ∀ q c rest, popNonLast l q = some (c, rest) → c ≠ l := by
  intro q
  induction q with
  | nil => intro c rest h; simp [popNonLast] at h
  | cons x xs ih =>
    intro c rest h
    by_cases hx : x = l
    · rw [popNonLast, if_pos hx] at h
      exact ih c rest h
    · rw [popNonLast, if_neg hx] at h
      simp only [Option.some.injEq, Prod.mk.injEq] at h
      exact h.1 ▸ hx

theorem clampInterval_le_MAX_TOTAL (s n : Int) :
    clampInterval s n ≤ MAX_TOTAL := by
  simp only [clampInterval, min_def, MAX_TOTAL_val, MAX_INCREASE_val]
  split_ifs <;> omega

theorem clampInterval_diff_le (s n : Int) :
    clampInterval s n - s ≤ MAX_INCREASE := by
  simp only [clampInterval, min_def, MAX_TOTAL_val, MAX_INCREASE_val]
  split_ifs <;> omega

theorem applyReminderCaps_le :
    ∀ (tags : List String) (ni : Int) (noise : Bool) (out : Int × Bool),
      applyReminderCaps tags ni noise = some out → out.1 ≤ ni := by
  intro tags
  induction tags with
  | nil =>
    intro ni noise out h
    rw [applyReminderCaps] at h
    injection h with h1
    subst h1
    exact le_refl _
  | cons tag rest ih =>
    intro ni noise out h
    rw [applyReminderCaps] at h
    by_cases hpre : List.isPrefixOf REMINDER_TAG_STUB.data tag.data = true
    · rw [if_pos hpre] at h
      cases hp : parsePyInt (tag.data.drop REMINDER_TAG_STUB.data.length) with
      | none => rw [hp] at h; exact absurd h (by simp)
      | some numdays =>
        rw [hp] at h
        have h2 : applyReminderCaps rest (min ni (numdays * DAY))
            (if numdays * DAY - DAY ≤ min ni (numdays * DAY) then true
             else noise) = some out := h
        have h3 := ih _ _ _ h2
        have h4 : min ni (numdays * DAY) ≤ ni := min_le_left _ _
        omega
    · rw [if_neg hpre] at h
      exact ih _ _ _ h

theorem applyReminderCaps_noise_mono :
    ∀ (tags : List String) (ni : Int) (out : Int × Bool),
      applyReminderCaps tags ni true = some out → out.2 = true := by
  intro tags
  induction tags with
  | nil =>
    intro ni out h
    rw [applyReminderCaps] at h
    injection h with h1
    subst h1
    rfl
  | cons tag rest ih =>
    intro ni out h
    rw [applyReminderCaps] at h
    by_cases hpre : List.isPrefixOf REMINDER_TAG_STUB.data tag.data = true
    · rw [if_pos hpre] at h
      cases hp : parsePyInt (tag.data.drop REMINDER_TAG_STUB.data.length) with
      | none => rw [hp] at h; exact absurd h (by simp)
      | some numdays =>
        rw [hp] at h
        have h2 : applyReminderCaps rest (min ni (numdays * DAY))
            (if numdays * DAY - DAY ≤ min ni (numdays * DAY) then true
             else true) = some out := h
        rw [ite_self] at h2
        exact ih _ _ h2
    · rw [if_neg hpre] at h
      exact ih _ _ h

theorem applyReminderCaps_tag :
    ∀ (tags : List String) (ni : Int) (noise : Bool) (out : Int × Bool),
      applyReminderCaps tags ni noise = some out →
      ∀ tag ∈ tags, List.isPrefixOf REMINDER_TAG_STUB.data tag.data = true →
      ∀ N : Int, parsePyInt (tag.data.drop REMINDER_TAG_STUB.data.length) = some N →
      out.1 ≤ N * DAY ∧ ((N - 1) * DAY ≤ out.1 → out.2 = true) := by
  intro tags
  induction tags with
  | nil =>
    intro ni noise out _ tag htag
    simp at htag
  | cons tag0 rest ih =>
    intro ni noise out h tag htag hpre N hparse
    rw [applyReminderCaps] at h
    rcases List.mem_cons.mp htag with rfl | htag2
    · rw [if_pos hpre, hparse] at h
      have h2 : applyReminderCaps rest (min ni (N * DAY))
          (if N * DAY - DAY ≤ min ni (N * DAY) then true else noise) =
          some out := h
      have hle := applyReminderCaps_le _ _ _ _ h2
      have hmr : min ni (N * DAY) ≤ N * DAY := min_le_right _ _
      constructor
      · omega
      · intro hge
        have hDAY := DAY_val
        have hcond : N * DAY - DAY ≤ min ni (N * DAY) := by
          rw [hDAY] at hge hle ⊢
          omega
        rw [if_pos hcond] at h2
        exact applyReminderCaps_noise_mono _ _ _ h2
    · by_cases hpre0 : List.isPrefixOf REMINDER_TAG_STUB.data tag0.data = true
      · rw [if_pos hpre0] at h
        cases hp : parsePyInt (tag0.data.drop REMINDER_TAG_STUB.data.length) with
        | none => rw [hp] at h; exact absurd h (by simp)
        | some M =>
          rw [hp] at h
          have h2 : applyReminderCaps rest (min ni (M * DAY))
              (if M * DAY - DAY ≤ min ni (M * DAY) then true else noise) =
              some out := h
          exact ih _ _ _ h2 tag htag2 hpre N hparse
      · rw [if_neg hpre0] at h
        exact ih _ _ _ h tag htag2 hpre N hparse

theorem chain_insertDescInterval (x : Row) (l : List Row)
    (h : List.Chain' (fun a b => b.interval ≤ a.interval) l) :
    List.Chain' (fun a b => b.interval ≤ a.interval) (insertDescInterval x l) := by
  induction l with
  | nil => simp [insertDescInterval]
  | cons y ys ih =>
    rw [insertDescInterval]
    by_cases hxy : x.interval ≥ y.interval
    · rw [if_pos hxy]
      exact List.chain'_cons.mpr ⟨hxy, h⟩
    · rw [if_neg hxy]
      have hh := List.chain'_cons'.mp h
      have hins := ih hh.2
      refine List.chain'_cons'.mpr ⟨?_, hins⟩
      intro z hz
      cases ys with
      | nil =>
        simp [insertDescInterval] at hz
        subst hz
        omega
      | cons w ws =>
        rw [insertDescInterval] at hz
        by_cases hxw : x.interval ≥ w.interval
        · rw [if_pos hxw] at hz
          simp at hz
          subst hz
          omega
        · rw [if_neg hxw] at hz
          simp at hz
          subst hz
          exact hh.1 w rfl

theorem chain_sortDescInterval (l : List Row) :
    List.Chain' (fun a b => b.interval ≤ a.interval) (sortDescInterval l) := by
  induction l with
  | nil => simp [sortDescInterval]
  | cons x xs ih =>
    rw [sortDescInterval]
    exact chain_insertDescInterval x _ ih

theorem QInv_nil (factOf : Nat → Nat) : QInv factOf [] [] :=
  ⟨by simp, by simp⟩

theorem QInv_append2 (factOf : Nat → Nat) (q fs : List Nat) (c f : Nat)
    (hf : f = factOf c) (hnot : f ∉ fs) (h : QInv factOf q fs) :
    QInv factOf (q ++ [c, c]) (fs ++ [f]) := by
  constructor
  · intro x hx
    rcases List.mem_append.mp hx with hq | hc
    · exact List.mem_append.mpr (Or.inl (h.1 x hq))
    · have : x = c := by simpa using hc
      subst this
      exact List.mem_append.mpr (Or.inr (by simp [hf]))
  · intro x1 h1 x2 h2 heq
    rcases List.mem_append.mp h1 with hq1 | hc1 <;>
      rcases List.mem_append.mp h2 with hq2 | hc2
    · exact h.2 x1 hq1 x2 hq2 heq
    · have hx2 : x2 = c := by simpa using hc2
      subst hx2
      exact absurd (heq ▸ h.1 x1 hq1) (by rw [← hf] at *; exact hnot)
    · have hx1 : x1 = c := by simpa using hc1
      subst hx1
      exact absurd (heq ▸ h.1 x2 hq2) (by rw [← hf] at *; exact hnot)
    · have hx1 : x1 = c := by simpa using hc1
      have hx2 : x2 = c := by simpa using hc2
      rw [hx1, hx2]

theorem QInv_append1 (factOf : Nat → Nat) (q fs : List Nat) (c f : Nat)
    (hf : f = factOf c) (hnot : f ∉ fs) (h : QInv factOf q fs) :
    QInv factOf (q ++ [c]) (fs ++ [f]) := by
  constructor
  · intro x hx
    rcases List.mem_append.mp hx with hq | hc
    · exact List.mem_append.mpr (Or.inl (h.1 x hq))
    · have : x = c := by simpa using hc
      subst this
      exact List.mem_append.mpr (Or.inr (by simp [hf]))
  · intro x1 h1 x2 h2 heq
    rcases List.mem_append.mp h1 with hq1 | hc1 <;>
      rcases List.mem_append.mp h2 with hq2 | hc2
    · exact h.2 x1 hq1 x2 hq2 heq
    · have hx2 : x2 = c := by simpa using hc2
      subst hx2
      exact absurd (heq ▸ h.1 x1 hq1) (by rw [← hf] at *; exact hnot)
    · have hx1 : x1 = c := by simpa using hc1
      subst hx1
      exact absurd (heq ▸ h.1 x2 hq2) (by rw [← hf] at *; exact hnot)
    · have hx1 : x1 = c := by simpa using hc1
      have hx2 : x2 = c := by simpa using hc2
      rw [hx1, hx2]

theorem relearnLoop_QInv (factOf : Nat → Nat) :
    ∀ (rows : List (Nat × Nat)), (∀ p ∈ rows, p.2 = factOf p.1) →
    ∀ (q fs : List Nat) (cnt lim : Nat), QInv factOf q fs →
      QInv factOf (relearnLoop rows q fs cnt lim).1
        (relearnLoop rows q fs cnt lim).2.1 := by
  intro rows
  induction rows with
  | nil =>
    intro _ q fs cnt lim h
    simpa [relearnLoop] using h
  | cons p rest ih =>
    intro hrows q fs cnt lim h
    obtain ⟨c, f⟩ := p
    have hf : f = factOf c := hrows (c, f) (by simp)
    have hrest : ∀ p ∈ rest, p.2 = factOf p.1 :=
      fun p hp => hrows p (List.mem_cons_of_mem _ hp)
    rw [relearnLoop]
    by_cases hmem : f ∈ fs
    · rw [if_pos hmem]
      exact ih hrest q fs cnt lim h
    · rw [if_neg hmem]
      by_cases hcnt : cnt < lim
      · rw [if_pos hcnt]
        have h2 := QInv_append2 factOf q fs c f hf hmem h
        by_cases heq : cnt + 1 = lim
        · simp only [if_pos heq]
          exact h2
        · simp only [if_neg heq]
          exact ih hrest _ _ _ _ h2
      · rw [if_neg hcnt]
        by_cases heq : cnt = lim
        · simp only [if_pos heq]
          exact h
        · simp only [if_neg heq]
          exact ih hrest q fs cnt lim h

theorem unseenLoop_QInv (factOf : Nat → Nat) (checkMem : Bool) (mem : List Nat) :
    ∀ (rows : List (Nat × Nat)), (∀ p ∈ rows, p.2 = factOf p.1) →
    ∀ (q fs : List Nat) (cnt lim : Nat), QInv factOf q fs →
      QInv factOf (unseenLoop checkMem mem rows q fs cnt lim).1
        (unseenLoop checkMem mem rows q fs cnt lim).2.1 := by
  intro rows
  induction rows with
  | nil =>
    intro _ q fs cnt lim h
    simpa [unseenLoop] using h
  | cons p rest ih =>
    intro hrows q fs cnt lim h
    obtain ⟨c, f⟩ := p
    have hf : f = factOf c := hrows (c, f) (by simp)
    have hrest : ∀ p ∈ rest, p.2 = factOf p.1 :=
      fun p hp => hrows p (List.mem_cons_of_mem _ hp)
    rw [unseenLoop]
    by_cases hmem : f ∈ fs
    · rw [if_pos hmem]
      exact ih hrest q fs cnt lim h
    · rw [if_neg hmem]
      by_cases hsk : checkMem ∧ f ∈ mem
      · rw [if_pos hsk]
        exact ih hrest q fs cnt lim h
      · rw [if_neg hsk]
        have h2 := QInv_append1 factOf q fs c f hf hmem h
        by_cases heq : cnt + 1 = lim
        · simp only [if_pos heq]
          exact h2
        · simp only [if_neg heq]
          exact ih hrest _ _ _ _ h2

theorem stage1_inl_last (cfg : Cfg) (db : Db) (now : Int) (st s : SchedState)
    (h : stage1 cfg db now st = Sum.inl s) :
    s.card_id_last = st.card_id_last := by
  simp only [stage1] at h
  split_ifs at h
  all_goals
    first
      | exact Sum.noConfusion h
      | (injection h with h2; subst h2; rfl)
      | (injection h with h2; injection h2 with h3 h4; subst h3; rfl)

theorem stage1_inr_last (cfg : Cfg) (db : Db) (now : Int) (st s : SchedState)
    (h : stage1 cfg db now st = Sum.inr s) :
    s.card_id_last = st.card_id_last := by
  simp only [stage1] at h
  split_ifs at h
  all_goals
    first
      | exact Sum.noConfusion h
      | (injection h with h2; subst h2; rfl)
      | (injection h with h2; injection h2 with h3 h4; subst h3; rfl)

theorem stage2_inl_last (db : Db) (st s : SchedState)
    (h : stage2 db st = Sum.inl s) :
    s.card_id_last = st.card_id_last := by
  simp only [stage2] at h
  split_ifs at h
  all_goals
    first
      | exact Sum.noConfusion h
      | (injection h with h2; subst h2; rfl)
      | (injection h with h2; injection h2 with h3 h4; subst h3; rfl)

theorem stage2_inr_last (db : Db) (st s : SchedState) (cnt : Nat)
    (h : stage2 db st = Sum.inr (s, cnt)) :
    s.card_id_last = st.card_id_last := by
  simp only [stage2] at h
  split_ifs at h
  all_goals
    first
      | exact Sum.noConfusion h
      | (injection h with h2; subst h2; rfl)
      | (injection h with h2; injection h2 with h3 h4; subst h3; rfl)

theorem stage3_inl_last (db : Db) (st s : SchedState) (cnt : Nat)
    (h : stage3 db st cnt = Sum.inl s) :
    s.card_id_last = st.card_id_last := by
  simp only [stage3] at h
  split_ifs at h
  all_goals
    first
      | exact Sum.noConfusion h
      | (injection h with h2; subst h2; rfl)
      | (injection h with h2; injection h2 with h3 h4; subst h3; rfl)

theorem stage3_inr_last (db : Db) (st s : SchedState) (cnt cnt2 : Nat)
    (h : stage3 db st cnt = Sum.inr (s, cnt2)) :
    s.card_id_last = st.card_id_last := by
  simp only [stage3] at h
  split_ifs at h
  all_goals
    first
      | exact Sum.noConfusion h
      | (injection h with h2; subst h2; rfl)
      | (injection h with h2; injection h2 with h3 h4; subst h3; rfl)

theorem stage4_inl_last (db : Db) (st s : SchedState) (cnt : Nat)
    (h : stage4 db st cnt = Sum.inl s) :
    s.card_id_last = st.card_id_last := by
  simp only [stage4] at h
  split_ifs at h
  all_goals
    first
      | exact Sum.noConfusion h
      | (injection h with h2; subst h2; rfl)
      | (injection h with h2; injection h2 with h3 h4; subst h3; rfl)

theorem stage4_inr_last (db : Db) (st s : SchedState) (cnt : Nat)
    (h : stage4 db st cnt = Sum.inr s) :
    s.card_id_last = st.card_id_last := by
  simp only [stage4] at h
  split_ifs at h
  all_goals
    first
      | exact Sum.noConfusion h
      | (injection h with h2; subst h2; rfl)
      | (injection h with h2; injection h2 with h3 h4; subst h3; rfl)

theorem stage5_last (cfg : Cfg) (db : Db) (now : Int) (la : Bool)
    (st : SchedState) :
    (stage5 cfg db now la st).card_id_last = st.card_id_last := by
  rw [stage5]
  split_ifs <;> simp

theorem rebuild_queue_last (cfg : Cfg) (db : Db) (now : Int) (la : Bool)
    (st : SchedState) :
    (rebuild_queue cfg db now la st).card_id_last = st.card_id_last := by
  rw [rebuild_queue]
  split
  · rfl
  · dsimp only
    split
    next s h1 =>
      rw [stage1_inl_last _ _ _ _ _ h1]
    next s1 h1 =>
      have e1 := stage1_inr_last _ _ _ _ _ h1
      split
      next s h2 =>
        rw [stage2_inl_last _ _ _ h2, e1]
      next s2 cnt2 h2 =>
        have e2 := stage2_inr_last _ _ _ _ h2
        split
        next s h3 =>
          rw [stage3_inl_last _ _ _ _ h3, e2, e1]
        next s3 cnt3 h3 =>
          have e3 := stage3_inr_last _ _ _ _ _ h3
          split
          next s h4 =>
            rw [stage4_inl_last _ _ _ _ h4, e3, e2, e1]
          next s4 h4 =>
            have e4 := stage4_inr_last _ _ _ _ h4
            rw [stage5_last, e4, e3, e2, e1]

/-! ### Claim C8 -/

/-- C8 (counterexample): in a zone at UTC (offset 0), applying
`midnight_UTC` to its own output returns the same value at the concrete
input 1000, so re-application does not always yield a different value. -/
theorem C8_counterexample :
    midnight_UTC 0 (midnight_UTC 0 1000) = midnight_UTC 0 1000 := by decide

/-- C8 (amended): `midnight_UTC` returns the same value for every
timestamp on the same local calendar date; applying it to a prior output
shifts the value back one day — a different value — exactly when the local
zone lies strictly west of UTC (positive offset below one day), while for
offsets in `(-DAY, 0]` (UTC and zones east of it) the re-application is
the identity. -/
theorem C8_midnight_amended (tz t t1 t2 : Int) :
    (local_date tz t1 = local_date tz t2 →
      midnight_UTC tz t1 = midnight_UTC tz t2)
    ∧ (0 < tz → tz < DAY →
      midnight_UTC tz (midnight_UTC tz t) = midnight_UTC tz t - DAY)
    ∧ (-DAY < tz → tz ≤ 0 →
      midnight_UTC tz (midnight_UTC tz t) = midnight_UTC tz t) := by
  refine ⟨?_, ?_, ?_⟩
  · intro h
    unfold midnight_UTC
    rw [h]
  · intro h1 h2
    simp only [midnight_UTC, local_date, fdiv_DAY_eq]
    rw [DAY_val] at h2 ⊢
    omega
  · intro h1 h2
    simp only [midnight_UTC, local_date, fdiv_DAY_eq]
    rw [DAY_val] at h1 ⊢
    omega

/-- C8 (witness for the amended claim): at offset 18000 (west of UTC)
re-application moves the output one day back; at offset 0 it is the
identity; two morning timestamps of the same local day map equally. -/
theorem C8_midnight_amended_witness :
    midnight_UTC 18000 (midnight_UTC 18000 1000) = midnight_UTC 18000 1000 - DAY
    ∧ midnight_UTC 0 (midnight_UTC 0 1000) = midnight_UTC 0 1000
    ∧ midnight_UTC 18000 100 = midnight_UTC 18000 200 :=
  ⟨(C8_midnight_amended 18000 1000 100 200).2.1 (by decide) (by decide),
   (C8_midnight_amended 0 1000 100 200).2.2 (by decide) (by decide),
   (C8_midnight_amended 18000 1000 100 200).1 (by decide)⟩

/-! ### Claim C7 -/

/-- C7: `true_scheduled_interval` reports the internal-error signal
exactly when the card is graded FORGOT with `next_rep - last_rep ≠ 0`,
returns the uncorrected difference in the FORGOT case, and every
non-dry-run `grade_answer` with `new_grade = GRADE_FORGOT` commits
`card.next_rep = card.last_rep` (invariant I3). -/
theorem C7_forgot_invariant :
    (∀ (cfg : Cfg) (card : Card),
      (true_scheduled_interval cfg card).2 = true ↔
        (card.grade = GRADE_FORGOT ∧ card.next_rep - card.last_rep ≠ 0))
    ∧ (∀ (cfg : Cfg) (card : Card), card.grade = GRADE_FORGOT →
        (true_scheduled_interval cfg card).1 = card.next_rep - card.last_rep)
    ∧ (∀ (cfg : Cfg) (card : Card) (now start noise : Int)
        (sisters : List Int) (st : SchedState) (res : GradeResult),
        grade_answer cfg card GRADE_FORGOT false now start noise sisters st =
          some res →
        res.card.next_rep = res.card.last_rep) := by
  refine ⟨?_, ?_, ?_⟩
  · intro cfg card
    by_cases hg : card.grade = GRADE_FORGOT
    · simp [true_scheduled_interval, hg]
    · simp [true_scheduled_interval, hg]
  · intro cfg card hg
    simp [true_scheduled_interval, hg]
  · intro cfg card now start noise sisters st res h
    simp only [grade_answer] at h
    split at h
    · exact absurd h (by simp)
    · split at h
      · exact absurd h (by simp)
      · norm_num [GRADE_FORGOT, GRADE_SAME, GRADE_MORE_SMALL,
          GRADE_MORE_BIG] at h
        subst h
        rfl

/-- C7 (witness): a forgotten card with a five-day uncorrected interval
triggers the error signal and returns the raw difference; grading a
forgotten card FORGOT again (not a dry run) commits
`next_rep = last_rep`. -/
theorem C7_forgot_invariant_witness :
    (true_scheduled_interval cfg0 cardForgotBad).2 = true
    ∧ (true_scheduled_interval cfg0 cardForgotBad).1 =
        cardForgotBad.next_rep - cardForgotBad.last_rep
    ∧ (grade_answer cfg0 cardForgot GRADE_FORGOT false 5 5 0 [] stEmpty).elim
        False (fun r => r.card.next_rep = r.card.last_rep) := by
  refine ⟨(C7_forgot_invariant.1 cfg0 cardForgotBad).mpr ⟨rfl, by decide⟩,
          C7_forgot_invariant.2.1 cfg0 cardForgotBad rfl, ?_⟩
  cases h : grade_answer cfg0 cardForgot GRADE_FORGOT false 5 5 0 [] stEmpty with
  | none => exact absurd h (by decide)
  | some r =>
    exact C7_forgot_invariant.2.2 cfg0 cardForgot 5 5 0 [] stEmpty r h

/-! ### Claim C4 -/

/-- C4: for a retention card graded MORE_BIG with scheduled and actual
intervals of 100 days, the branch computes the raw product 300 days, the
`MAX_TOTAL` clamp leaves it at 300 days, the `MAX_INCREASE` clamp reduces
it to 130 days, and `grade_answer` returns 130 days plus the drawn noise
term of `DAY * noise_choice`. -/
theorem C4_clamp_scenario (cfg : Cfg) (card : Card) (dry : Bool)
    (now start noise : Int) (sisters : List Int) (st : SchedState)
    (hg : card.grade = GRADE_MORE_BIG) (htags : card.tags = [])
    (hsched : (true_scheduled_interval cfg card).1 = 100 * DAY)
    (hact : start - card.last_rep = 100 * DAY) :
    (gradeBranch card GRADE_MORE_BIG dry (start - card.last_rep)
        (true_scheduled_interval cfg card).1 st.card_ids_in_queue).map
      (fun b => b.new_interval) = some (300 * DAY)
    ∧ min MAX_TOTAL (300 * DAY) = 300 * DAY
    ∧ clampInterval (100 * DAY) (300 * DAY) = 100 * DAY + 30 * DAY
    ∧ (grade_answer cfg card GRADE_MORE_BIG dry now start noise sisters st).map
        (fun r => r.new_interval) = some (130 * DAY + DAY * noise) := by
  have hbr : (gradeBranch card GRADE_MORE_BIG dry (start - card.last_rep)
      (true_scheduled_interval cfg card).1 st.card_ids_in_queue).map
      (fun b => b.new_interval) = some (300 * DAY) := by
    simp only [gradeBranch, hg, hact, hsched]
    norm_num [GRADE_MORE_BIG, GRADE_FORGOT, GRADE_LESS_BIG, GRADE_LESS_SMALL,
      GRADE_SAME, GRADE_MORE_SMALL, DAY_val, max_def, min_def]
  refine ⟨hbr, by decide, by decide, ?_⟩
  cases dry <;>
    norm_num [grade_answer, gradeBranch, hg, hact, hsched, htags,
      GRADE_MORE_BIG, GRADE_FORGOT, GRADE_LESS_BIG, GRADE_LESS_SMALL,
      GRADE_SAME, GRADE_MORE_SMALL, clampInterval, applyReminderCaps,
      DAY_val, MAX_TOTAL, MAX_INCREASE, HOUR, max_def, min_def,
      Int.fdiv_eq_ediv] <;>
    try omega

/-- C4 (witness): the scenario evaluated at a concrete card with
`last_rep = 0`, `next_rep = 100·DAY`, stopwatch start `100·DAY` and noise
choice 1 returns `131·DAY`. -/
theorem C4_clamp_scenario_witness :
    (grade_answer cfg0 cardBig100 GRADE_MORE_BIG true 0 (100 * DAY) 1 []
      stEmpty).map (fun r => r.new_interval) = some (130 * DAY + DAY * 1) :=
  (C4_clamp_scenario cfg0 cardBig100 true 0 (100 * DAY) 1 [] stEmpty
    rfl rfl (by decide) (by decide)).2.2.2

/-! ### Claim C5 -/

/-- C5 (counterexample): a SAME grading whose actual interval equals the
scheduled interval of 350 days returns `MAX_TOTAL = 360·DAY` plus noise —
362 days with noise choice 2 — not the actual interval; likewise a 50-day
interval with noise choice 2 returns 52 days.  The second call of two
equally spaced SAME gradings therefore need not return `actual_interval`. -/
theorem C5_counterexample :
    (grade_answer cfg0 cardSame350 GRADE_SAME true 0 (350 * DAY) 2 []
      stEmpty).map (fun r => r.new_interval) = some (352 * DAY)
    ∧ (352 * DAY : Int) ≠ 350 * DAY := by
  constructor
  · decide
  · decide

/-- C5 (amended): two consecutive SAME gradings spaced exactly the
scheduled interval apart (hypotheses: the card is graded SAME from the
first call and `actual_interval = scheduled_interval`) return
`new_interval = actual_interval` on the second call, provided the interval
is at least one day and below the 40-day noise threshold and the card
carries no reminder tags (so that no noise is drawn). -/
theorem C5_same_roundtrip_amended (cfg : Cfg) (card : Card) (dry : Bool)
    (now start noise : Int) (sisters : List Int) (st : SchedState)
    (hg : card.grade = GRADE_SAME) (htags : card.tags = [])
    (hsched : start - card.last_rep = (true_scheduled_interval cfg card).1)
    (hlo : DAY ≤ start - card.last_rep)
    (hhi : start - card.last_rep < 40 * DAY) :
    (grade_answer cfg card GRADE_SAME dry now start noise sisters st).map
      (fun r => r.new_interval) = some (start - card.last_rep) := by
  rw [DAY_val] at hlo
  have hfdiv : ¬ (40 ≤ (start - card.last_rep).fdiv DAY) := by
    rw [fdiv_DAY_eq, DAY_val]
    rw [DAY_val] at hhi
    omega
  have hni : ¬ (start - card.last_rep < DAY) := by
    rw [DAY_val]
    omega
  have hclamp : clampInterval (true_scheduled_interval cfg card).1
      (start - card.last_rep) = start - card.last_rep := by
    rw [← hsched]
    simp only [clampInterval, min_def]
    rw [MAX_TOTAL_val, MAX_INCREASE_val, DAY_val] at *
    split_ifs <;> omega
  cases dry <;>
    norm_num [grade_answer, gradeBranch, hg, htags, hclamp, hfdiv, hni,
      GRADE_SAME, GRADE_FORGOT, GRADE_LESS_BIG, GRADE_LESS_SMALL,
      GRADE_MORE_SMALL, GRADE_MORE_BIG, applyReminderCaps]

/-- C5 (witness): a SAME grading of a card scheduled 10 days out, graded
exactly 10 days later, returns exactly the 10-day actual interval. -/
theorem C5_same_roundtrip_witness :
    (grade_answer cfg0 cardSame10 GRADE_SAME true 0 (10 * DAY) 2 []
      stEmpty).map (fun r => r.new_interval) = some (10 * DAY - 0) := by
  have h := C5_same_roundtrip_amended cfg0 cardSame10 true 0 (10 * DAY) 2 []
    stEmpty rfl rfl (by decide) (by decide) (by decide)
  simpa using h

/-! ### Claim C6 -/

/-- C6: for every tag of the form `Reminder::ReminderN` on the card,
`grade_answer` caps the interval before noise at `N·DAY`, and whenever the
capped interval reaches `(N-1)·DAY` the noise flag is set, so a noise term
`DAY * noise_choice` (drawn from `{-2,...,2}`) is added to the returned
interval. -/
theorem C6_reminder_cap (cfg : Cfg) (card : Card) (new_grade : Int)
    (dry : Bool) (now start noise : Int) (sisters : List Int)
    (st : SchedState) (res : GradeResult)
    (h : grade_answer cfg card new_grade dry now start noise sisters st =
      some res) :
    ∀ tag ∈ card.tags,
      List.isPrefixOf REMINDER_TAG_STUB.data tag.data = true →
      ∀ N : Int,
        parsePyInt (tag.data.drop REMINDER_TAG_STUB.data.length) = some N →
        res.pre_noise_interval ≤ N * DAY
        ∧ ((N - 1) * DAY ≤ res.pre_noise_interval →
            res.add_noise = true
            ∧ res.new_interval = res.pre_noise_interval + DAY * noise) := by
  intro tag htag hpre N hparse
  simp only [grade_answer] at h
  split at h
  · exact absurd h (by simp)
  · split at h
    · exact absurd h (by simp)
    next capped hcaps =>
      have htg := applyReminderCaps_tag _ _ _ _ hcaps tag htag hpre N
        (by rw [← hparse])
      split at h <;>
        (injection h with h2; subst h2;
         refine ⟨htg.1, fun hge => ?_⟩;
         have hn := htg.2 hge;
         rw [hn];
         simp)

/-- C6 (witness): a card tagged `Reminder::Reminder14` graded MORE_BIG is
capped to a pre-noise interval of at most 14 days, and since the capped
result reaches 13 days, the noise term is added. -/
theorem C6_reminder_cap_witness :
    (grade_answer cfg0 cardRem14 GRADE_MORE_BIG true 0 (10 * DAY) 0 []
      stEmpty).elim False
      (fun r => r.pre_noise_interval ≤ 14 * DAY ∧
        ((14 - 1) * DAY ≤ r.pre_noise_interval → r.add_noise = true ∧
          r.new_interval = r.pre_noise_interval + DAY * 0)) := by
  cases hr : grade_answer cfg0 cardRem14 GRADE_MORE_BIG true 0 (10 * DAY) 0 []
      stEmpty with
  | none => exact absurd hr (by decide)
  | some r =>
    exact C6_reminder_cap cfg0 cardRem14 GRADE_MORE_BIG true 0 (10 * DAY) 0 []
      stEmpty r hr "Reminder::Reminder14" (by decide) (by decide) 14
      (by decide)

/-! ### Claim C2 -/

/-- C2 (counterexample): a SAME grading of a card with a 350-day scheduled
interval, an actual interval of 400 days and noise choice 2 returns
`362·DAY`, exceeding `MAX_TOTAL = 360·DAY`: the returned interval is not
always at most 360 days. -/
theorem C2_counterexample :
    (grade_answer cfg0 cardSame350 GRADE_SAME true 0 (400 * DAY) 2 []
      stEmpty).map (fun r => r.new_interval) = some (362 * DAY)
    ∧ ¬ ((362 * DAY : Int) ≤ MAX_TOTAL) := ⟨by decide, by decide⟩

/-- C2 (amended): with the noise term (drawn from `{-2,...,2}` days)
added after the clamps, every successful `grade_answer` returns an
interval of at most `MAX_TOTAL + 2·DAY` that exceeds the scheduled
interval by at most `MAX_INCREASE + 2·DAY`; the clamps themselves bound
the pre-noise interval by `MAX_TOTAL` and `MAX_INCREASE`. -/
theorem C2_bounds_amended (cfg : Cfg) (card : Card) (new_grade : Int)
    (dry : Bool) (now start noise : Int) (sisters : List Int)
    (st : SchedState) (res : GradeResult)
    (hn1 : -2 ≤ noise) (hn2 : noise ≤ 2)
    (h : grade_answer cfg card new_grade dry now start noise sisters st =
      some res) :
    (res.new_interval ≤ MAX_TOTAL + 2 * DAY
      ∧ res.new_interval - (true_scheduled_interval cfg card).1 ≤
          MAX_INCREASE + 2 * DAY)
    ∧ (res.pre_noise_interval ≤ MAX_TOTAL
      ∧ res.pre_noise_interval - (true_scheduled_interval cfg card).1 ≤
          MAX_INCREASE) := by
  simp only [grade_answer] at h
  split at h
  · exact absurd h (by simp)
  next b hb =>
    split at h
    · exact absurd h (by simp)
    next capped hcaps =>
      have hle := applyReminderCaps_le _ _ _ _ hcaps
      have hc1 := clampInterval_le_MAX_TOTAL
        (true_scheduled_interval cfg card).1 b.new_interval
      have hc2 := clampInterval_diff_le
        (true_scheduled_interval cfg card).1 b.new_interval
      split at h <;>
        (injection h with h2; subst h2; dsimp only;
         simp only [MAX_TOTAL_val, MAX_INCREASE_val, DAY_val] at hc1 hc2 ⊢;
         refine ⟨⟨?_, ?_⟩, ?_, ?_⟩ <;> (try split) <;> omega)

/-- C2 (witness): the bounds evaluated on the 350-day SAME grading with
noise choice 1. -/
theorem C2_bounds_amended_witness :
    (-2 ≤ (1 : Int) ∧ (1 : Int) ≤ 2)
    ∧ (grade_answer cfg0 cardSame350 GRADE_SAME true 0 (400 * DAY) 1 []
        stEmpty).elim False
      (fun r => (r.new_interval ≤ MAX_TOTAL + 2 * DAY
        ∧ r.new_interval - (true_scheduled_interval cfg0 cardSame350).1 ≤
            MAX_INCREASE + 2 * DAY)
        ∧ (r.pre_noise_interval ≤ MAX_TOTAL
        ∧ r.pre_noise_interval - (true_scheduled_interval cfg0 cardSame350).1 ≤
            MAX_INCREASE)) := by
  refine ⟨⟨by decide, by decide⟩, ?_⟩
  cases hr : grade_answer cfg0 cardSame350 GRADE_SAME true 0 (400 * DAY) 1 []
      stEmpty with
  | none => exact absurd hr (by decide)
  | some r =>
    exact C2_bounds_amended cfg0 cardSame350 GRADE_SAME true 0 (400 * DAY) 1
      [] stEmpty r (by decide) (by decide) hr

/-! ### Claim C9 -/

/-- C9 (counterexample): the last-shown guard tests Python truthiness of
`_card_id_last`, so the identifier 0 is treated as unset: with queue
`[0, 0, 1]` two successive `next_card` calls both return card 0 — a
repeat outside the hopeless case (the second call is not flagged
hopeless). -/
theorem C9_counterexample :
    (next_card cfg0 dbEmpty 0 false stQueue00).1 = some 0
    ∧ ((next_card cfg0 dbEmpty 0 false stQueue00).2.2).card_id_last = some 0
    ∧ (next_card cfg0 dbEmpty 0 false
        ((next_card cfg0 dbEmpty 0 false stQueue00).2.2)).1 = some 0
    ∧ (next_card cfg0 dbEmpty 0 false
        ((next_card cfg0 dbEmpty 0 false stQueue00).2.2)).2.1 = false := by
  decide

/-- C9 (amended): provided the previously returned identifier is nonzero
(the guard `if self._card_id_last:` skips the check for the falsy
identifier 0), `next_card` never returns the identifier it returned last,
except on the hopeless-case path, which the result flag records. -/
theorem C9_no_repeat_amended (cfg : Cfg) (db : Db) (now : Int) (la : Bool)
    (st : SchedState) (l : Nat)
    (hlast : st.card_id_last = some l) (hl : l ≠ 0)
    (hhope : (next_card cfg db now la st).2.1 = false) :
    (next_card cfg db now la st).1 ≠ some l := by
  intro hres
  rw [next_card] at hhope hres
  set stA := if st.card_ids_in_queue.length = 0 then
    rebuild_queue cfg db now la st else st with hstA
  have hpre : stA.card_id_last = some l := by
    rw [hstA]
    split
    · rw [rebuild_queue_last]; exact hlast
    · exact hlast
  dsimp only at hhope hres
  cases hq : stA.card_ids_in_queue with
  | nil =>
    rw [hq] at hres
    simp at hres
  | cons a rest =>
    rw [hq] at hhope hres
    dsimp only at hhope hres
    rw [hpre] at hhope hres
    dsimp only at hhope hres
    rw [if_neg hl] at hhope hres
    by_cases hal : a = l
    · rw [if_neg (not_not_intro hal)] at hhope hres
      cases hp : popNonLast l rest with
      | some pr =>
        obtain ⟨c2, r2⟩ := pr
        rw [hp] at hres
        dsimp only at hres
        injection hres with h3
        exact popNonLast_ne_last l rest c2 r2 hp h3
      | none =>
        rw [hp] at hhope hres
        dsimp only at hhope hres
        by_cases hB : (rebuild_queue cfg db now la
            { stA with card_ids_in_queue := ([]:List Nat), card_id_last := some l }).card_ids_in_queue.length = 0
        · rw [if_pos hB] at hres
          simp at hres
        · rw [if_neg hB] at hhope hres
          by_cases hall : (rebuild_queue cfg db now la
              { stA with card_ids_in_queue := ([]:List Nat), card_id_last := some l }).card_ids_in_queue.all
              (fun x => decide (x = l)) = true
          · rw [if_pos hall] at hhope
            simp at hhope
          · rw [if_neg hall] at hres
            cases hp2 : popNonLast l (rebuild_queue cfg db now la
                { stA with card_ids_in_queue := ([]:List Nat), card_id_last := some l }).card_ids_in_queue with
            | some pr2 =>
              obtain ⟨c3, r3⟩ := pr2
              rw [hp2] at hres
              dsimp only at hres
              injection hres with h3
              exact popNonLast_ne_last l _ c3 r3 hp2 h3
            | none =>
              rw [hp2] at hres
              simp at hres
    · rw [if_pos hal] at hres
      dsimp only at hres
      injection hres with h3
      exact hal h3

/-- C9 (witness): with queue `[5, 7]` and last-shown card 5, `next_card`
pops the stale 5 and returns 7, which differs from 5. -/
theorem C9_no_repeat_amended_witness :
    (next_card cfg0 dbEmpty 0 false stQueue57).2.1 = false
    ∧ (next_card cfg0 dbEmpty 0 false stQueue57).1 = some 7
    ∧ (next_card cfg0 dbEmpty 0 false stQueue57).1 ≠ some 5 :=
  ⟨by decide, by decide,
   C9_no_repeat_amended cfg0 dbEmpty 0 false stQueue57 5 rfl (by decide)
     (by decide)⟩

/-! ### Claim C3 -/

/-- C3 (counterexample): with two due cards of scheduled intervals 2 days
(card 1) and 50 days (card 2), the stage-1 rebuild queues the 50-day card
first — the sort key `"-interval"` orders by descending interval — so the
queue is `[2, 1]`, not the ascending `[1, 2]` the claim requires. -/
theorem C3_counterexample :
    (rebuild_queue cfg0 dbDueTwo (10 * DAY) false stEmpty).card_ids_in_queue
      = [2, 1]
    ∧ ([2, 1] : List Nat) ≠ [1, 2]
    ∧ (2 * DAY : Int) < 50 * DAY := by decide

/-- C3 (amended): in stage 1 the builder fetches up to 50 cards with
`next_rep ≤ adjusted_now` sorted by descending scheduled interval
(longest first, sort key `"-interval"`), appends every returned
`(card_id, fact_id)` pair, and returns without running later stages
(the stage value stays 1) whenever any card was fetched. -/
theorem C3_stage1_amended (cfg : Cfg) (db : Db) (now : Int) (la : Bool)
    (st : SchedState)
    (hload : db.loaded = true) (hact : db.activeCount ≠ 0)
    (hstage : st.stage = 1)
    (hne : cards_due_for_ret_rep db (adjusted_now cfg now) "-interval" 50 ≠ []) :
    (rebuild_queue cfg db now la st).card_ids_in_queue =
      (cards_due_for_ret_rep db (adjusted_now cfg now) "-interval" 50).map
        Prod.fst
    ∧ (rebuild_queue cfg db now la st).fact_ids_in_queue =
      (cards_due_for_ret_rep db (adjusted_now cfg now) "-interval" 50).map
        Prod.snd
    ∧ (rebuild_queue cfg db now la st).stage = 1
    ∧ (cards_due_for_ret_rep db (adjusted_now cfg now) "-interval" 50).length
        ≤ 50
    ∧ List.Chain' (fun a b => b.interval ≤ a.interval)
        (storeSort "-interval" (db.dueRows.filter
          (fun r => decide (r.next_rep ≤ adjusted_now cfg now)))) := by
  have hres : rebuild_queue cfg db now la st = { st with
      card_ids_in_queue :=
        (cards_due_for_ret_rep db (adjusted_now cfg now) "-interval" 50).map
          Prod.fst
      fact_ids_in_queue :=
        (cards_due_for_ret_rep db (adjusted_now cfg now) "-interval" 50).map
          Prod.snd
      in_learn_ahead := false } := by
    rw [rebuild_queue, if_neg (by simp [hload, hact])]
    dsimp only
    rw [stage1]
    dsimp only
    rw [if_pos hstage, if_pos (by simpa using hne)]
    dsimp only
    simp
  refine ⟨by rw [hres], by rw [hres], by rw [hres]; exact hstage, ?_, ?_⟩
  · simp only [cards_due_for_ret_rep, List.length_map]
    exact le_trans (List.length_take_le _ _) (le_refl _)
  · rw [storeSort, if_pos rfl]
    exact chain_sortDescInterval _

/-- C3 (witness): the amended stage-1 description evaluated on the
two-due-cards store. -/
theorem C3_stage1_amended_witness :
    (rebuild_queue cfg0 dbDueTwo (10 * DAY) false stEmpty).card_ids_in_queue =
      (cards_due_for_ret_rep dbDueTwo (adjusted_now cfg0 (10 * DAY))
        "-interval" 50).map Prod.fst
    ∧ (rebuild_queue cfg0 dbDueTwo (10 * DAY) false
        stEmpty).fact_ids_in_queue =
      (cards_due_for_ret_rep dbDueTwo (adjusted_now cfg0 (10 * DAY))
        "-interval" 50).map Prod.snd
    ∧ (rebuild_queue cfg0 dbDueTwo (10 * DAY) false stEmpty).stage = 1
    ∧ (cards_due_for_ret_rep dbDueTwo (adjusted_now cfg0 (10 * DAY))
        "-interval" 50).length ≤ 50
    ∧ List.Chain' (fun a b => b.interval ≤ a.interval)
        (storeSort "-interval" (dbDueTwo.dueRows.filter
          (fun r => decide (r.next_rep ≤ adjusted_now cfg0 (10 * DAY))))) :=
  C3_stage1_amended cfg0 dbDueTwo (10 * DAY) false stEmpty rfl (by decide)
    rfl (by decide)

/-! ### Claim C1 -/

theorem stage2_inl_QInv (db : Db) (st s : SchedState) (factOf : Nat → Nat)
    (hrel : ∀ p ∈ cards_to_relearn db GRADE_FORGOT "last_rep",
      p.2 = factOf p.1)
    (hq : QInv factOf st.card_ids_in_queue st.fact_ids_in_queue)
    (h : stage2 db st = Sum.inl s) :
    QInv factOf s.card_ids_in_queue s.fact_ids_in_queue := by
  simp only [stage2] at h
  split_ifs at h
  all_goals
    first
      | exact Sum.noConfusion h
      | (injection h with h2; subst h2;
         exact relearnLoop_QInv factOf _ hrel _ _ _ _ hq)

theorem stage2_inr_QInv (db : Db) (st s : SchedState) (cnt : Nat)
    (factOf : Nat → Nat)
    (hrel : ∀ p ∈ cards_to_relearn db GRADE_FORGOT "last_rep",
      p.2 = factOf p.1)
    (hq : QInv factOf st.card_ids_in_queue st.fact_ids_in_queue)
    (h : stage2 db st = Sum.inr (s, cnt)) :
    QInv factOf s.card_ids_in_queue s.fact_ids_in_queue := by
  simp only [stage2] at h
  split_ifs at h
  all_goals
    first
      | exact Sum.noConfusion h
      | (injection h with h2; injection h2 with h3 h4; subst h3;
         first
           | exact relearnLoop_QInv factOf _ hrel _ _ _ _ hq
           | exact hq)

theorem stage3_inl_QInv (db : Db) (st s : SchedState) (cnt : Nat)
    (factOf : Nat → Nat)
    (hnewm : ∀ p ∈ cards_new_memorising db GRADE_FORGOT, p.2 = factOf p.1)
    (hq : QInv factOf st.card_ids_in_queue st.fact_ids_in_queue)
    (h : stage3 db st cnt = Sum.inl s) :
    QInv factOf s.card_ids_in_queue s.fact_ids_in_queue := by
  simp only [stage3] at h
  split_ifs at h
  all_goals
    first
      | exact Sum.noConfusion h
      | (injection h with h2; subst h2;
         exact relearnLoop_QInv factOf _ hnewm _ _ _ _ hq)

theorem stage3_inr_QInv (db : Db) (st s : SchedState) (cnt cnt2 : Nat)
    (factOf : Nat → Nat)
    (hnewm : ∀ p ∈ cards_new_memorising db GRADE_FORGOT, p.2 = factOf p.1)
    (hq : QInv factOf st.card_ids_in_queue st.fact_ids_in_queue)
    (h : stage3 db st cnt = Sum.inr (s, cnt2)) :
    QInv factOf s.card_ids_in_queue s.fact_ids_in_queue := by
  simp only [stage3] at h
  split_ifs at h
  all_goals
    first
      | exact Sum.noConfusion h
      | (injection h with h2; injection h2 with h3 h4; subst h3;
         first
           | exact relearnLoop_QInv factOf _ hnewm _ _ _ _ hq
           | exact hq)

theorem stage4_inl_QInv (db : Db) (st s : SchedState) (cnt : Nat)
    (factOf : Nat → Nat)
    (huns : ∀ p ∈ cards_unseen db 50, p.2 = factOf p.1)
    (hq : QInv factOf st.card_ids_in_queue st.fact_ids_in_queue)
    (h : stage4 db st cnt = Sum.inl s) :
    QInv factOf s.card_ids_in_queue s.fact_ids_in_queue := by
  have hq1 := unseenLoop_QInv factOf true st.fact_ids_memorised
    (cards_unseen db 50) huns st.card_ids_in_queue st.fact_ids_in_queue cnt
    50 hq
  have hq2 := unseenLoop_QInv factOf false st.fact_ids_memorised
    (cards_unseen db 50) huns
    (unseenLoop true st.fact_ids_memorised (cards_unseen db 50)
      st.card_ids_in_queue st.fact_ids_in_queue cnt 50).1
    (unseenLoop true st.fact_ids_memorised (cards_unseen db 50)
      st.card_ids_in_queue st.fact_ids_in_queue cnt 50).2.1
    (unseenLoop true st.fact_ids_memorised (cards_unseen db 50)
      st.card_ids_in_queue st.fact_ids_in_queue cnt 50).2.2.1 50 hq1
  simp only [stage4] at h
  split_ifs at h
  all_goals
    first
      | exact Sum.noConfusion h
      | (injection h with h2; subst h2; first | exact hq1 | exact hq2)

theorem stage4_inr_QInv (db : Db) (st s : SchedState) (cnt : Nat)
    (factOf : Nat → Nat)
    (huns : ∀ p ∈ cards_unseen db 50, p.2 = factOf p.1)
    (hq : QInv factOf st.card_ids_in_queue st.fact_ids_in_queue)
    (h : stage4 db st cnt = Sum.inr s) :
    QInv factOf s.card_ids_in_queue s.fact_ids_in_queue := by
  have hq1 := unseenLoop_QInv factOf true st.fact_ids_memorised
    (cards_unseen db 50) huns st.card_ids_in_queue st.fact_ids_in_queue cnt
    50 hq
  have hq2 := unseenLoop_QInv factOf false st.fact_ids_memorised
    (cards_unseen db 50) huns
    (unseenLoop true st.fact_ids_memorised (cards_unseen db 50)
      st.card_ids_in_queue st.fact_ids_in_queue cnt 50).1
    (unseenLoop true st.fact_ids_memorised (cards_unseen db 50)
      st.card_ids_in_queue st.fact_ids_in_queue cnt 50).2.1
    (unseenLoop true st.fact_ids_memorised (cards_unseen db 50)
      st.card_ids_in_queue st.fact_ids_in_queue cnt 50).2.2.1 50 hq1
  simp only [stage4] at h
  split_ifs at h
  all_goals
    first
      | exact Sum.noConfusion h
      | (injection h with h2; subst h2;
         first | exact hq | exact hq1 | exact hq2)

/-- C1 (counterexample): two due sister cards (fact 7) are both appended
by stage 1, which performs no fact check: the rebuilt queue holds the two
distinct cards 1 and 2 with equal facts, so sister cards can coexist. -/
theorem C1_counterexample :
    (rebuild_queue cfg0 dbDueSisters (10 * DAY) false
      stEmpty).card_ids_in_queue = [2, 1]
    ∧ (rebuild_queue cfg0 dbDueSisters (10 * DAY) false
      stEmpty).fact_ids_in_queue = [7, 7]
    ∧ (∀ r ∈ dbDueSisters.dueRows, r.fid = 7)
    ∧ ¬ SisterFree (rebuild_queue cfg0 dbDueSisters (10 * DAY) false stEmpty)
        (fun _ => 7) := by
  refine ⟨by decide, by decide, by decide, ?_⟩
  intro hsf
  have h21 := hsf 2 (by decide) 1 (by decide) rfl
  exact absurd h21 (by decide)

/-- C1 (amended): the appends of stages 2-4 enforce sister-card exclusion
through `fact_ids_in_queue`, so a rebuild that starts past stage 1 with
`learn_ahead = false` leaves no two distinct queued cards sharing a fact
(given a store consistent with the card-to-fact map, and a sister-free
prior queue for the no-op case of an unloaded or empty store); stage 1
appends every due pair without the fact check, so due sister cards may
coexist after a stage-1 rebuild. -/
theorem C1_sister_free_amended (cfg : Cfg) (db : Db) (now : Int)
    (st : SchedState) (factOf : Nat → Nat)
    (hrel : ∀ p ∈ cards_to_relearn db GRADE_FORGOT "last_rep",
      p.2 = factOf p.1)
    (hnewm : ∀ p ∈ cards_new_memorising db GRADE_FORGOT, p.2 = factOf p.1)
    (huns : ∀ p ∈ cards_unseen db 50, p.2 = factOf p.1)
    (hstage : st.stage ≠ 1)
    (hst : SisterFree st factOf) :
    SisterFree (rebuild_queue cfg db now false st) factOf := by
  rw [rebuild_queue]
  split
  · exact hst
  · dsimp only
    split
    next s h1 =>
      rw [stage1, if_neg (by simpa using hstage)] at h1
      exact Sum.noConfusion h1
    next s1 h1 =>
      rw [stage1, if_neg (by simpa using hstage)] at h1
      injection h1 with h2
      subst h2
      have hQ1 : QInv factOf ([] : List Nat) ([] : List Nat) := QInv_nil factOf
      split
      next s h2 =>
        exact (stage2_inl_QInv db _ s factOf hrel hQ1 h2).2
      next s2 cnt2 h2 =>
        have hQ2 := stage2_inr_QInv db _ s2 cnt2 factOf hrel hQ1 h2
        split
        next s h3 =>
          exact (stage3_inl_QInv db s2 s cnt2 factOf hnewm hQ2 h3).2
        next s3 cnt3 h3 =>
          have hQ3 := stage3_inr_QInv db s2 s3 cnt2 cnt3 factOf hnewm hQ2 h3
          split
          next s h4 =>
            exact (stage4_inl_QInv db s3 s cnt3 factOf huns hQ3 h4).2
          next s4 h4 =>
            have hQ4 := stage4_inr_QInv db s3 s4 cnt3 factOf huns hQ3 h4
            rw [stage5, if_pos rfl]
            exact hQ4.2

/-- C1 (witness): a stage-2 rebuild over two forgotten sister cards
queues card 1 twice and skips its sister, leaving a sister-free queue. -/
theorem C1_sister_free_amended_witness :
    (rebuild_queue cfg0 dbRelearnSisters 0 false stStage2).card_ids_in_queue
      = [1, 1]
    ∧ SisterFree (rebuild_queue cfg0 dbRelearnSisters 0 false stStage2)
        (fun _ => 7) :=
  ⟨by decide,
   C1_sister_free_amended cfg0 dbRelearnSisters 0 stStage2 (fun _ => 7)
     (by decide) (by decide) (by decide) (by decide)
     (by intro c1 hc1; simp [stStage2] at hc1)⟩

/-! ### Claim C10 -/

theorem ite_bool_eq_true_iff (c : Prop) [Decidable c] :
    ((if c then true else false) = true) ↔ c := by
  by_cases hc : c <;> simp [hc]

/-- C10 (counterexample): `_fact_ids_memorised` is a list, not a set.
Memorising the same fact 7 for the fifteenth time (fourteen prior entries
of the same fact) fires the too-many-cards warning even though only one
distinct fact was memorised: the warning counts entries with multiplicity,
not set size. -/
theorem C10_counterexample :
    (grade_answer cfg0 cardForgot GRADE_SAME false 5 5 0 [] stMem14).map
      (fun r => (r.warning_shown, r.state.fact_ids_memorised)) =
      some (true, List.replicate 15 7)
    ∧ (List.replicate 15 (7 : Nat)).dedup.length = 1 := by
  constructor
  · simp [grade_answer, gradeBranch, applyReminderCaps, clampInterval,
      avoid_sister_cards_nil, true_scheduled_interval, cardForgot, stMem14,
      cfg0, GRADE_FORGOT, GRADE_SAME, GRADE_LESS_BIG, GRADE_LESS_SMALL,
      GRADE_MORE_SMALL, GRADE_MORE_BIG, DAY, HOUR, MAX_TOTAL, MAX_INCREASE]
  · decide

/-- C10 (amended): on every successful non-dry-run `grade_answer` the
memorised collection is a list that appends the card's fact exactly on a
FORGOT-to-non-FORGOT transition (duplicates retained), the warning fires
exactly when that list's length (with multiplicity) is 15 and the flag is
clear, the flag is set once the warning fires, and `reset` clears the
flag. -/
theorem C10_memorised_amended :
    (∀ (cfg : Cfg) (card : Card) (new_grade : Int) (now start noise : Int)
      (sisters : List Int) (st : SchedState) (res : GradeResult),
      grade_answer cfg card new_grade false now start noise sisters st =
        some res →
      (res.state.fact_ids_memorised =
        if card.grade = GRADE_FORGOT ∧ new_grade ≠ GRADE_FORGOT
        then st.fact_ids_memorised ++ [card.fact]
        else st.fact_ids_memorised)
      ∧ (res.warning_shown = true ↔
          (res.state.fact_ids_memorised.length = 15
           ∧ st.warned_about_too_many_cards = false))
      ∧ res.state.warned_about_too_many_cards =
          (st.warned_about_too_many_cards || res.warning_shown))
    ∧ ∀ (st : SchedState) (b : Bool),
        (reset st b).warned_about_too_many_cards = false := by
  constructor
  · intro cfg card new_grade now start noise sisters st res h
    simp only [grade_answer] at h
    split at h
    · exact absurd h (by simp)
    · split at h
      · exact absurd h (by simp)
      · rw [if_neg (by simp)] at h
        injection h with h2
        subst h2
        refine ⟨?_, ?_, ?_⟩
        · dsimp only
          simp
        · exact ite_bool_eq_true_iff _
        · rfl
  · intro st b
    rfl

/-- C10 (witness): the amended description evaluated on the fifteenth
memorisation (fourteen prior entries) and on a reset. -/
theorem C10_memorised_amended_witness :
    (grade_answer cfg0 cardForgot GRADE_SAME false 5 5 0 [] stMem14).elim
      False (fun r =>
        (r.state.fact_ids_memorised =
          if cardForgot.grade = GRADE_FORGOT ∧ GRADE_SAME ≠ GRADE_FORGOT
          then stMem14.fact_ids_memorised ++ [cardForgot.fact]
          else stMem14.fact_ids_memorised)
        ∧ (r.warning_shown = true ↔
            (r.state.fact_ids_memorised.length = 15
             ∧ stMem14.warned_about_too_many_cards = false))
        ∧ r.state.warned_about_too_many_cards =
            (stMem14.warned_about_too_many_cards || r.warning_shown))
    ∧ (reset stEmpty true).warned_about_too_many_cards = false := by
  constructor
  · cases hr : grade_answer cfg0 cardForgot GRADE_SAME false 5 5 0 []
        stMem14 with
    | none =>
      refine absurd hr ?_
      simp [grade_answer, gradeBranch, applyReminderCaps, clampInterval,
        avoid_sister_cards_nil, true_scheduled_interval, cardForgot, stMem14,
        cfg0, GRADE_FORGOT, GRADE_SAME, GRADE_LESS_BIG, GRADE_LESS_SMALL,
        GRADE_MORE_SMALL, GRADE_MORE_BIG, DAY, HOUR, MAX_TOTAL, MAX_INCREASE]
    | some r =>
      exact C10_memorised_amended.1 cfg0 cardForgot GRADE_SAME 5 5 0 []
        stMem14 r hr
  · exact C10_memorised_amended.2 stEmpty true

end SM2
